import Mathlib

/-!
# URL shortener core: shallow embedding and verification

This development embeds the core of a URL-shortening service
(`app/utils.py`, `app/models.py`, `app/main.py`) in Lean 4 and proves
properties of the embedded code.

Strings are modelled as `List Char`.  The SQLite-backed store is modelled
as a list of rows (the `urls` table); `created_at` timestamps are
abstracted to a `Nat` supplied by the caller.  Randomness in short-code
generation is modelled as an explicit stream of draws `Nat → List Char`.
-/

namespace UrlShortener

/-- Whitespace as recognised by Python's `str.strip` and `\s`
(restricted to the ASCII whitespace characters; Python additionally
strips some exotic Unicode spaces, which never occur in this
development). -/
def pyIsSpace (c : Char) : Bool :=
  c == ' ' || c == '\t' || c == '\n' || c == '\x0d' || c == '\x0b' || c == '\x0c'

/-- ASCII alphanumeric: the 62-symbol alphabet `[A-Za-z0-9]`. -/
def asciiAlnum (c : Char) : Bool :=
  c.isAlpha || c.isDigit

/-- Python's per-character `str.isalnum` test.  Python decides this from
the full Unicode tables; this model covers the code points used in this
development: the ASCII alphanumerics, the Latin-1 letters
(U+00AA, U+00B5, U+00BA, and U+00C0–U+00FF minus the multiplication and
division signs), and the fullwidth digits U+FF10–U+FF19.  On every other
code point used here it agrees with Python. -/
def pyIsAlnum (c : Char) : Bool :=
  asciiAlnum c
  || c.toNat == 0xAA || c.toNat == 0xB5 || c.toNat == 0xBA
  || (0xC0 ≤ c.toNat && c.toNat ≤ 0xFF && c.toNat ≠ 0xD7 && c.toNat ≠ 0xF7)
  || (0xFF10 ≤ c.toNat && c.toNat ≤ 0xFF19)

/-- Python's `str.isalnum`: nonempty and every character alphanumeric. -/
def pyStrIsAlnum (l : List Char) : Bool :=
  !l.isEmpty && l.all pyIsAlnum

/-- Drop leading whitespace (`str.lstrip`). -/
def dropLeadingWs (l : List Char) : List Char :=
  l.dropWhile pyIsSpace

/-- Drop trailing whitespace (`str.rstrip`). -/
def dropTrailingWs (l : List Char) : List Char :=
  ((l.reverse).dropWhile pyIsSpace).reverse

/-- Python's `str.strip`: remove leading and trailing whitespace. -/
def pyStrip (l : List Char) : List Char :=
  dropTrailingWs (dropLeadingWs l)

/-- `url.startswith(('http://', 'https://'))` from `sanitize_url`. -/
def hasHttpScheme (u : List Char) : Bool :=
  List.isPrefixOf "http://".data u || List.isPrefixOf "https://".data u

/-- `utils.sanitize_url`: strip surrounding whitespace and prepend
`http://` when no `http(s)://` scheme is present.  Empty input maps
to the empty string. -/
def sanitize_url (url : List Char) : List Char :=
  if url.isEmpty then []
  else
    let u := pyStrip url
    if !u.isEmpty && !hasHttpScheme u then "http://".data ++ u else u

/-- `utils.validate_short_code`: false for the empty string, false unless
the length is exactly 6, otherwise Python's `str.isalnum`. -/
def validate_short_code (code : List Char) : Bool :=
  if code.isEmpty then false
  else if code.length == 6 then pyStrIsAlnum code
  else false


/-! ## A small backtracking regular-expression engine

`utils.is_valid_url` validates URLs with one fixed `re` pattern compiled
with `re.IGNORECASE`.  The pattern is embedded as a term of a tiny regex
AST and matched with a fuelled backtracking matcher in
continuation-passing style (the fuel only bounds iterations of `plus`;
every `plus` body in the pattern below consumes at least one character,
so fuel `length + 2` is always sufficient). -/

/-- Regex AST: empty word, character class, sequencing, alternation,
option (`?`), and one-or-more (`+`).  Bounded repetition `{lo,hi}` is
expanded into this AST by `rxRep` below. -/
inductive Rx where
  | eps : Rx
  | cls (p : Char → Bool) : Rx
  | seq (a b : Rx) : Rx
  | alt (a b : Rx) : Rx
  | opt (a : Rx) : Rx
  | plus (a : Rx) : Rx

/-- One fuel level of the backtracking matcher, in CPS: matching `r`
against an initial segment of the input succeeds iff the continuation
`k` succeeds on some remainder; re-entry into a `plus` iteration goes
through `next`, which ties the knot at one fuel level lower.  Greedy
alternatives are tried first, as Python's engine does; since the result
is a plain Bool over all backtracking alternatives, the order does not
affect it. -/
def rxRunF (next : Rx → List Char → (List Char → Bool) → Bool) :
    Rx → List Char → (List Char → Bool) → Bool
  | .eps, s, k => k s
  | .cls p, s, k =>
    match s with
    | [] => false
    | c :: rest => p c && k rest
  | .seq a b, s, k => rxRunF next a s (fun s1 => rxRunF next b s1 k)
  | .alt a b, s, k => rxRunF next a s k || rxRunF next b s k
  | .opt a, s, k => rxRunF next a s k || k s
  | .plus a, s, k => rxRunF next a s (fun s1 => next (.plus a) s1 k || k s1)

/-- Fuelled backtracking matcher.  The fuel only bounds the number of
`plus` iterations along one matching path; every `plus` body in the
URL pattern consumes at least one character, so fuel `length + 2` is
always sufficient. -/
def rxRun : Nat → Rx → List Char → (List Char → Bool) → Bool
  | 0, _, _, _ => false
  | fuel + 1, r, s, k => rxRunF (rxRun fuel) r s k

/-- Exactly `n` copies of `a`. -/
def rxRepExact (a : Rx) : Nat → Rx
  | 0 => .eps
  | n + 1 => .seq a (rxRepExact a n)

/-- At most `n` copies of `a` (greedy). -/
def rxRepOpt (a : Rx) : Nat → Rx
  | 0 => .eps
  | n + 1 => .opt (.seq a (rxRepOpt a n))

/-- Bounded repetition `a{lo,hi}`. -/
def rxRep (a : Rx) (lo hi : Nat) : Rx :=
  .seq (rxRepExact a lo) (rxRepOpt a (hi - lo))

/-- Case-insensitive literal character (the source pattern is compiled
with `re.IGNORECASE`). -/
def litCI (c : Char) : Rx :=
  .cls (fun x => x.toLower == c.toLower)

/-- Case-insensitive literal word. -/
def strCI (s : List Char) : Rx :=
  s.foldr (fun c r => .seq (litCI c) r) .eps

/-- `[A-Z0-9-]` under `re.IGNORECASE`. -/
def alnumDash (c : Char) : Bool :=
  asciiAlnum c || c == '-'

/-- One domain label: `[A-Z0-9](?:[A-Z0-9-]{0,61}[A-Z0-9])?`. -/
def label_rx : Rx :=
  .seq (.cls asciiAlnum)
    (.opt (.seq (rxRep (.cls alnumDash) 0 61) (.cls asciiAlnum)))

/-- Dotted hostname: `(?:label\.)+[A-Z]{2,6}\.?`. -/
def domain_rx : Rx :=
  .seq (.plus (.seq label_rx (litCI '.')))
    (.seq (rxRep (.cls Char.isAlpha) 2 6) (.opt (litCI '.')))

/-- Dotted-quad IPv4: `\d{1,3}\.\d{1,3}\.\d{1,3}\.\d{1,3}`. -/
def ipv4_rx : Rx :=
  .seq (rxRep (.cls Char.isDigit) 1 3)
    (.seq (litCI '.')
      (.seq (rxRep (.cls Char.isDigit) 1 3)
        (.seq (litCI '.')
          (.seq (rxRep (.cls Char.isDigit) 1 3)
            (.seq (litCI '.') (rxRep (.cls Char.isDigit) 1 3))))))

/-- Host alternatives: dotted hostname, `localhost`, or IPv4. -/
def host_rx : Rx :=
  .alt domain_rx (.alt (strCI "localhost".data) ipv4_rx)

/-- Optional port: `(?::\d+)?`. -/
def port_rx : Rx :=
  .opt (.seq (litCI ':') (.plus (.cls Char.isDigit)))

/-- Path tail: `(?:/?|[/?]\S+)`. -/
def tail_rx : Rx :=
  .alt (.opt (litCI '/'))
    (.seq (.cls (fun c => c == '/' || c == '?'))
      (.plus (.cls (fun c => !pyIsSpace c))))

/-- Scheme: `^https?://`. -/
def scheme_rx : Rx :=
  .seq (strCI "http".data) (.seq (.opt (litCI 's')) (strCI "://".data))

/-- The whole `url_pattern` of `utils.is_valid_url`. -/
def url_rx : Rx :=
  .seq scheme_rx (.seq host_rx (.seq port_rx tail_rx))

/-- `url_pattern.match(url)` as a Bool: the pattern is anchored with
`^...$`; Python's `$` also matches just before one trailing newline. -/
def url_regex_match (s : List Char) : Bool :=
  rxRun (s.length + 2) url_rx s (fun r => r.isEmpty || r == ['\n'])

/-! ### `urllib.parse.urlparse`, restricted to scheme and netloc

`is_valid_url` additionally requires `urlparse(url).scheme` and
`urlparse(url).netloc` to be nonempty. -/

/-- Characters allowed after the first in a URL scheme token. -/
def schemeChar (c : Char) : Bool :=
  asciiAlnum c || c == '+' || c == '-' || c == '.'

/-- Split at the first `:`: returns the part before and after it. -/
def splitColon : List Char → Option (List Char × List Char)
  | [] => none
  | c :: rest =>
    if c == ':' then some ([], rest)
    else (splitColon rest).map (fun p => (c :: p.1, p.2))

/-- A valid scheme token: a letter followed by letters, digits, `+`,
`-`, or `.`. -/
def validSchemeToken (l : List Char) : Bool :=
  match l with
  | [] => false
  | c :: rest => c.isAlpha && rest.all schemeChar

/-- `urlparse`: scheme (lowercased) and the rest of the URL.  When no
valid scheme token precedes a colon, the scheme is empty and the whole
input is the rest. -/
def urlparseSchemeRest (url : List Char) : List Char × List Char :=
  match splitColon url with
  | some (pre, post) =>
    if validSchemeToken pre then (pre.map Char.toLower, post) else ([], url)
  | none => ([], url)

/-- `urlparse(...).netloc`: when the part after the scheme starts with
`//`, the authority runs up to the next `/`, `?`, or `#`. -/
def urlparseNetloc (rest : List Char) : List Char :=
  if List.isPrefixOf ['/', '/'] rest then
    (rest.drop 2).takeWhile (fun c => !(c == '/' || c == '?' || c == '#'))
  else []

/-- `utils.is_valid_url`: false on the empty string, else the anchored
regex match together with `all([parsed.scheme, parsed.netloc])`. -/
def is_valid_url (url : List Char) : Bool :=
  if url.isEmpty then false
  else
    url_regex_match url
      && !(urlparseSchemeRest url).1.isEmpty
      && !(urlparseNetloc (urlparseSchemeRest url).2).isEmpty


/-! ## The mapping store (`app/models.py`)

The SQLite `urls` table becomes a list of rows.  `short_code TEXT
PRIMARY KEY` means an `INSERT` of an existing code raises
`IntegrityError`, which `create_url_mapping` turns into `false`;
`created_at TIMESTAMP DEFAULT CURRENT_TIMESTAMP` is modelled by a `now`
argument; `click_count INTEGER DEFAULT 0` starts at zero. -/

/-- One row of the `urls` table. -/
structure UrlMapping where
  short_code : List Char
  original_url : List Char
  created_at : Nat
  click_count : Nat
deriving DecidableEq, Repr

/-- The `urls` table. -/
abbrev Store := List UrlMapping

/-- `URLShortenerDB.get_url_mapping`: `SELECT ... WHERE short_code = ?`
(the primary key makes at most one row match). -/
def get_url_mapping (s : Store) (code : List Char) : Option UrlMapping :=
  s.find? (fun m => m.short_code == code)

/-- `URLShortenerDB.create_url_mapping`: `INSERT INTO urls (short_code,
original_url) VALUES (?, ?)`.  A duplicate primary key raises
`IntegrityError`, caught and returned as `false` with the table
untouched; otherwise the row is appended with the default
`click_count = 0` and `created_at = now`. -/
def create_url_mapping (s : Store) (now : Nat) (code url : List Char) :
    Store × Bool :=
  if s.any (fun m => m.short_code == code) then (s, false)
  else (s ++ [⟨code, url, now, 0⟩], true)

/-- The effect of `UPDATE urls SET click_count = click_count + 1 WHERE
short_code = ?` on one row. -/
def bumpRow (code : List Char) (m : UrlMapping) : UrlMapping :=
  if m.short_code == code then
    ⟨m.short_code, m.original_url, m.created_at, m.click_count + 1⟩
  else m

/-- `URLShortenerDB.increment_click_count`: `UPDATE urls SET
click_count = click_count + 1 WHERE short_code = ?`; returns
`cursor.rowcount > 0`, i.e. whether any row matched. -/
def increment_click_count (s : Store) (code : List Char) : Store × Bool :=
  (s.map (bumpRow code), s.any (fun m => m.short_code == code))

/-- `URLShortenerDB.delete_url`: `DELETE FROM urls WHERE
short_code = ?`; returns whether a row was removed. -/
def delete_url (s : Store) (code : List Char) : Store × Bool :=
  (s.filter (fun m => !(m.short_code == code)),
    s.any (fun m => m.short_code == code))

/-- `utils.generate_unique_short_code`'s retry loop: attempt `i` draws
`draws i`; a draw that is not yet in the store is returned, and after
`attemptsLeft` collisions the loop gives up with `none`. -/
def gen_unique_aux (s : Store) (draws : Nat → List Char) :
    Nat → Nat → Option (List Char)
  | _, 0 => none
  | i, n + 1 =>
    let code := draws i
    if (get_url_mapping s code).isSome then gen_unique_aux s draws (i + 1) n
    else some code

/-- `utils.generate_unique_short_code` with its default
`max_attempts = 10`, the value used by `main.shorten_url`. -/
def generate_unique_short_code (s : Store) (draws : Nat → List Char)
    (max_attempts : Nat) : Option (List Char) :=
  gen_unique_aux s draws 0 max_attempts

/-! ## The HTTP flows (`app/main.py`)

Only the behaviour visible through the store and the responses is
modelled; JSON marshalling and logging are dropped. -/

/-- Outcome of `POST /api/shorten`. -/
inductive ShortenResult where
  | badRequest : ShortenResult
  | serverError : ShortenResult
  | created (short_code original_url : List Char) : ShortenResult
deriving DecidableEq, Repr

/-- `main.shorten_url`: validate the submitted URL as-is, then sanitize
it, then draw a unique code (10 attempts), then insert.  Note the order:
`is_valid_url` runs on the raw input, `sanitize_url` only afterwards. -/
def shorten_url (s : Store) (now : Nat) (draws : Nat → List Char)
    (url : List Char) : Store × ShortenResult :=
  if !is_valid_url url then (s, .badRequest)
  else
    let sanitized := sanitize_url url
    match generate_unique_short_code s draws 10 with
    | none => (s, .serverError)
    | some code =>
      match create_url_mapping s now code sanitized with
      | (s1, true) => (s1, .created code sanitized)
      | (_, false) => (s, .serverError)

/-- Outcome of `GET /<short_code>`. -/
inductive RedirectResult where
  | notFound : RedirectResult
  | redirect (location : List Char) : RedirectResult
deriving DecidableEq, Repr

/-- `main.redirect_to_original`: 404 on a malformed code, 404 on a
missing code, otherwise increment the click count and redirect to the
stored URL. -/
def redirect_to_original (s : Store) (code : List Char) :
    Store × RedirectResult :=
  if !validate_short_code code then (s, .notFound)
  else
    match get_url_mapping s code with
    | none => (s, .notFound)
    | some m => ((increment_click_count s code).1, .redirect m.original_url)

/-- Outcome of `GET /api/stats/<short_code>`. -/
inductive StatsResult where
  | badRequest : StatsResult
  | notFound : StatsResult
  | stats (short_code original_url : List Char)
      (click_count created_at : Nat) : StatsResult
deriving DecidableEq, Repr

/-- `main.get_url_stats`: 400 on a malformed code, 404 on a missing
code, otherwise report the mapping without touching it. -/
def get_url_stats (s : Store) (code : List Char) : StatsResult :=
  if !validate_short_code code then .badRequest
  else
    match get_url_mapping s code with
    | none => .notFound
    | some m => .stats m.short_code m.original_url m.click_count m.created_at

/-- `recordVisit` iterated `n` times (for click-count accounting). -/
def visitN (s : Store) (code : List Char) : Nat → Store
  | 0 => s
  | n + 1 => (increment_click_count (visitN s code n) code).1

/-- Store states reachable from the empty table by the store's mutating
operations (`get_url_mapping` is read-only and does not change the
state). -/
inductive Reachable : Store → Prop
  | empty : Reachable []
  | create (now : Nat) (code url : List Char) (s : Store) :
      Reachable s → Reachable (create_url_mapping s now code url).1
  | visit (code : List Char) (s : Store) :
      Reachable s → Reachable (increment_click_count s code).1
  | delete (code : List Char) (s : Store) :
      Reachable s → Reachable (delete_url s code).1

/-! ## Lemmas: stripping and sanitizing -/

theorem pyStrip_eq (l : List Char) :
    pyStrip l = List.rdropWhile pyIsSpace (List.dropWhile pyIsSpace l) := rfl

theorem dropWhile_of_append_eq_self (p : Char → Bool) (a t : List Char)
    (h : List.dropWhile p (a ++ t) = a ++ t) : List.dropWhile p a = a := by
  cases a with
  | nil => rfl
  | cons c cs =>
    rw [List.cons_append, List.dropWhile_cons] at h
    rw [List.dropWhile_cons]
    by_cases hc : p c
    · exfalso
      simp only [hc, if_true] at h
      have hlen := congrArg List.length h
      have hle : (List.dropWhile p (cs ++ t)).length ≤ (cs ++ t).length :=
        ((List.dropWhile_suffix p).sublist).length_le
      simp only [List.length_cons] at hlen
      omega
    · simp [hc]

/-- The result of `pyStrip` has no leading whitespace. -/
theorem dropWhile_pyStrip (l : List Char) :
    List.dropWhile pyIsSpace (pyStrip l) = pyStrip l := by
  obtain ⟨t, ht⟩ := List.rdropWhile_prefix pyIsSpace (List.dropWhile pyIsSpace l)
  rw [pyStrip_eq]
  refine dropWhile_of_append_eq_self pyIsSpace _ t ?_
  rw [ht, List.dropWhile_idempotent]

/-- The result of `pyStrip` is already stripped. -/
theorem pyStrip_idem (l : List Char) : pyStrip (pyStrip l) = pyStrip l := by
  rw [pyStrip_eq (pyStrip l), dropWhile_pyStrip, pyStrip_eq l,
    List.rdropWhile_idempotent]

theorem rdropWhile_append_of_clean {u : List Char} (a : List Char)
    (hu : u ≠ []) (h : List.rdropWhile pyIsSpace u = u) :
    List.rdropWhile pyIsSpace (a ++ u) = a ++ u := by
  induction u using List.reverseRecOn with
  | nil => exact absurd rfl hu
  | append_singleton u1 x _ =>
    have hx : ¬ pyIsSpace x = true := by
      intro hx
      rw [List.rdropWhile_concat_pos pyIsSpace u1 x hx] at h
      have hlen := congrArg List.length h
      have hle : (List.rdropWhile pyIsSpace u1).length ≤ u1.length := by
        rw [List.rdropWhile, List.length_reverse]
        have hs : (List.dropWhile pyIsSpace u1.reverse).length ≤ u1.reverse.length :=
          ((List.dropWhile_suffix pyIsSpace).sublist).length_le
        simpa using hs
      simp only [List.length_append, List.length_singleton] at hlen
      omega
    rw [← List.append_assoc]
    exact List.rdropWhile_concat_neg pyIsSpace (a ++ u1) x hx

/-- Prepending `http://` to a nonempty stripped string gives a stripped
string. -/
theorem pyStrip_http_append {u : List Char} (hu : u ≠ [])
    (h2 : List.rdropWhile pyIsSpace u = u) :
    pyStrip ("http://".data ++ u) = "http://".data ++ u := by
  rw [pyStrip_eq]
  have hlead : List.dropWhile pyIsSpace ("http://".data ++ u)
      = "http://".data ++ u := by
    rw [show ("http://".data ++ u) = 'h' :: ("ttp://".data ++ u) from rfl,
      List.dropWhile_cons]
    simp [pyIsSpace]
  rw [hlead]
  exact rdropWhile_append_of_clean "http://".data hu h2

theorem isPrefixOf_append_self (l t : List Char) :
    List.isPrefixOf l (l ++ t) = true := by
  rw [List.isPrefixOf_iff_prefix]
  exact ⟨t, rfl⟩

theorem hasHttpScheme_http_append (u : List Char) :
    hasHttpScheme ("http://".data ++ u) = true := by
  unfold hasHttpScheme
  rw [isPrefixOf_append_self]
  rfl

theorem hasHttpScheme_ne_nil {u : List Char} (h : hasHttpScheme u = true) :
    u ≠ [] := by
  intro he
  subst he
  exact absurd h (by decide)

/-- `sanitize_url` of a nonempty input whose strip is empty. -/
theorem sanitize_url_eval (url : List Char) (h : url.isEmpty = false) :
    sanitize_url url
      = (if !(pyStrip url).isEmpty && !hasHttpScheme (pyStrip url) then
          "http://".data ++ pyStrip url
        else pyStrip url) := by
  unfold sanitize_url
  rw [h]
  rfl

/-! ## Lemmas: the mapping store -/

theorem get_url_mapping_eq_none {s : Store} {c : List Char}
    (h : ∀ m ∈ s, m.short_code ≠ c) : get_url_mapping s c = none := by
  unfold get_url_mapping
  rw [List.find?_eq_none]
  intro m hm
  simpa using h m hm

theorem any_code_eq_false {s : Store} {c : List Char}
    (h : ∀ m ∈ s, m.short_code ≠ c) :
    s.any (fun m => m.short_code == c) = false := by
  rw [List.any_eq_false]
  intro m hm
  simpa using h m hm

theorem forall_of_any_code_eq_false {s : Store} {c : List Char}
    (h : s.any (fun m => m.short_code == c) = false) :
    ∀ m ∈ s, m.short_code ≠ c := by
  rw [List.any_eq_false] at h
  intro m hm
  simpa using h m hm

theorem get_append_fresh {s : Store} {c : List Char}
    (h : ∀ m ∈ s, m.short_code ≠ c) (row : UrlMapping)
    (hrow : row.short_code = c) :
    get_url_mapping (s ++ [row]) c = some row := by
  have h0 : List.find? (fun m => m.short_code == c) s = none :=
    get_url_mapping_eq_none h
  unfold get_url_mapping
  rw [List.find?_append, h0]
  simp [hrow]

theorem bumpRow_code (c : List Char) (m : UrlMapping) :
    (bumpRow c m).short_code = m.short_code := by
  unfold bumpRow
  split <;> rfl

theorem bumpRow_match {c : List Char} {m : UrlMapping}
    (h : (m.short_code == c) = true) :
    bumpRow c m
      = ⟨m.short_code, m.original_url, m.created_at, m.click_count + 1⟩ := by
  unfold bumpRow
  rw [if_pos h]

theorem bumpRow_nomatch {c : List Char} {m : UrlMapping}
    (h : (m.short_code == c) = false) : bumpRow c m = m := by
  unfold bumpRow
  rw [if_neg]
  simp [h]

/-- The short codes stored in the table. -/
def codes (s : Store) : List (List Char) :=
  s.map (fun m => m.short_code)

theorem codes_increment (s : Store) (c : List Char) :
    codes (increment_click_count s c).1 = codes s := by
  unfold codes increment_click_count
  rw [List.map_map]
  refine List.map_congr_left ?_
  intro m _
  exact bumpRow_code c m

theorem codes_nodup_of_reachable {s : Store} (h : Reachable s) :
    (codes s).Nodup := by
  induction h with
  | empty => simp [codes]
  | create now code url s hr ih =>
    unfold create_url_mapping
    by_cases hc : s.any (fun m => m.short_code == code) = true
    · simpa [hc] using ih
    · rw [Bool.not_eq_true] at hc
      have hnot : code ∉ codes s := by
        intro hmem
        obtain ⟨m, hm, hcode⟩ := List.mem_map.mp hmem
        exact forall_of_any_code_eq_false hc m hm hcode
      simp only [hc, Bool.false_eq_true, if_false, codes, List.map_append]
      rw [List.nodup_append]
      refine ⟨ih, List.nodup_singleton _, ?_⟩
      intro x hx hx1
      simp only [List.map_cons, List.map_nil, List.mem_singleton] at hx1
      subst hx1
      exact hnot hx
  | visit code s hr ih =>
    rw [codes_increment]
    exact ih
  | delete code s hr ih =>
    unfold delete_url codes
    exact ih.sublist (List.Sublist.map _ (List.filter_sublist _))

theorem get_increment_some {s : Store} {c : List Char} {m : UrlMapping}
    (h : get_url_mapping s c = some m) :
    get_url_mapping (increment_click_count s c).1 c
      = some ⟨m.short_code, m.original_url, m.created_at, m.click_count + 1⟩ := by
  unfold get_url_mapping at h
  show List.find? (fun x => x.short_code == c) (s.map (bumpRow c)) = _
  induction s with
  | nil => simp at h
  | cons a t ih =>
    rw [List.map_cons]
    by_cases ha : (a.short_code == c) = true
    · rw [@List.find?_cons_of_pos _ (fun m => m.short_code == c) a t ha] at h
      injection h with h2
      subst h2
      have hb : ((bumpRow c a).short_code == c) = true := by
        rw [bumpRow_code]
        exact ha
      rw [@List.find?_cons_of_pos _ (fun x => x.short_code == c) (bumpRow c a) (t.map (bumpRow c)) hb, bumpRow_match ha]
    · have ha0 : ¬ (a.short_code == c) = true := ha
      rw [@List.find?_cons_of_neg _ (fun m => m.short_code == c) a t ha0] at h
      have hb : ¬ ((bumpRow c a).short_code == c) = true := by
        rw [bumpRow_code]
        exact ha0
      rw [@List.find?_cons_of_neg _ (fun x => x.short_code == c) (bumpRow c a) (t.map (bumpRow c)) hb]
      exact ih h

theorem increment_rowcount_true {s : Store} {c : List Char} {m : UrlMapping}
    (h : get_url_mapping s c = some m) :
    (increment_click_count s c).2 = true := by
  unfold get_url_mapping at h
  unfold increment_click_count
  show List.any s (fun m => m.short_code == c) = true
  rw [List.any_eq_true]
  exact ⟨m, List.mem_of_find?_eq_some h, by simpa using List.find?_some h⟩

theorem increment_absent {s : Store} {c : List Char}
    (h : ∀ m ∈ s, m.short_code ≠ c) :
    increment_click_count s c = (s, false) := by
  unfold increment_click_count
  refine Prod.ext ?_ (any_code_eq_false h)
  show List.map (bumpRow c) s = s
  have hall : ∀ m ∈ s, bumpRow c m = m := by
    intro m hm
    refine bumpRow_nomatch ?_
    simpa using h m hm
  rw [List.map_congr_left hall]
  simp

theorem sanitize_url_of_stripped_scheme {u : List Char} (hne : u ≠ [])
    (hstrip : pyStrip u = u) (hsch : hasHttpScheme u = true) :
    sanitize_url u = u := by
  have hie : u.isEmpty = false := by simpa [List.isEmpty_iff] using hne
  rw [sanitize_url_eval u hie, hstrip, hsch]
  simp

theorem sanitize_url_http_append {u : List Char} (hne : u ≠ [])
    (h2 : List.rdropWhile pyIsSpace u = u) :
    sanitize_url ("http://".data ++ u) = "http://".data ++ u := by
  have hie : ("http://".data ++ u).isEmpty = false := rfl
  rw [sanitize_url_eval _ hie, pyStrip_http_append hne h2,
    hasHttpScheme_http_append]
  simp

/-! ## The claims -/

/-- Claim C8: normalization is idempotent: for every input string `x`,
`sanitize_url (sanitize_url x) = sanitize_url x`, where `sanitize_url`
trims surrounding whitespace and prepends `http://` to a non-empty
trimmed string lacking an `http://` or `https://` prefix. -/
theorem C8_theorem (x : List Char) :
    sanitize_url (sanitize_url x) = sanitize_url x := by
  by_cases hx : x.isEmpty = true
  · have hxnil : x = [] := by simpa using hx
    subst hxnil
    rfl
  · rw [Bool.not_eq_true] at hx
    have hstrip : pyStrip (pyStrip x) = pyStrip x := pyStrip_idem x
    have hrd : List.rdropWhile pyIsSpace (pyStrip x) = pyStrip x := by
      rw [pyStrip_eq x]
      exact List.rdropWhile_idempotent _ _
    rw [sanitize_url_eval x hx]
    by_cases hcond : (!(pyStrip x).isEmpty && !hasHttpScheme (pyStrip x)) = true
    · rw [if_pos hcond]
      have hne : pyStrip x ≠ [] := by
        rw [Bool.and_eq_true] at hcond
        simpa using hcond.1
      exact sanitize_url_http_append hne hrd
    · rw [if_neg hcond]
      by_cases hne : pyStrip x = []
      · rw [hne]
        rfl
      · by_cases hsch : hasHttpScheme (pyStrip x) = true
        · exact sanitize_url_of_stripped_scheme hne hstrip hsch
        · exfalso
          apply hcond
          have h1 : (pyStrip x).isEmpty = false := by simpa using hne
          rw [Bool.not_eq_true] at hsch
          rw [h1, hsch]
          rfl

/-- Claim C9: the URL validator decides the six boundary inputs as the
spec lists them: `not-a-url`, `ftp://example.com`, `https://`, and
`http://.com` are invalid; `https://www.example.com` and
`http://192.168.1.1:8080` are valid. -/
theorem C9_theorem :
    is_valid_url "not-a-url".data = false
    ∧ is_valid_url "ftp://example.com".data = false
    ∧ is_valid_url "https://".data = false
    ∧ is_valid_url "http://.com".data = false
    ∧ is_valid_url "https://www.example.com".data = true
    ∧ is_valid_url "http://192.168.1.1:8080".data = true := by
  refine ⟨?_, ?_, ?_, ?_, ?_, ?_⟩ <;> decide

/-- Claim C10: short-code format validation accepts strings outside the
62-symbol ASCII alphabet: there is a 6-character string, all of whose
characters are outside `[A-Za-z0-9]`, on which `validate_short_code`
returns true, because the source tests Python's Unicode `str.isalnum`
together with length 6 rather than membership in `[A-Za-z0-9]`. -/
theorem C10_theorem :
    ∃ code : List Char,
      code.length = 6
      ∧ validate_short_code code = true
      ∧ code.any (fun c => !asciiAlnum c) = true := by
  refine ⟨"éééééé".data, ?_, ?_, ?_⟩ <;> decide

/-- Claim C6: for every store and well-formed 6-character code `c` not
present in the store, `get` returns nothing, `recordVisit` reports no
matched row and leaves the entire store unchanged, and the redirect
endpoint answers 404 without touching the store. -/
theorem C6_theorem (s : Store) (c : List Char)
    (hwf : validate_short_code c = true)
    (habs : ∀ m ∈ s, m.short_code ≠ c) :
    get_url_mapping s c = none
    ∧ increment_click_count s c = (s, false)
    ∧ redirect_to_original s c = (s, RedirectResult.notFound) := by
  have hget := get_url_mapping_eq_none habs
  refine ⟨hget, increment_absent habs, ?_⟩
  unfold redirect_to_original
  rw [hwf]
  simp [hget]

theorem C6_witness :
    get_url_mapping [⟨"abc123".data, "http://example.com".data, 0, 3⟩]
        "zzzzzz".data = none
    ∧ increment_click_count [⟨"abc123".data, "http://example.com".data, 0, 3⟩]
        "zzzzzz".data
      = ([⟨"abc123".data, "http://example.com".data, 0, 3⟩], false)
    ∧ redirect_to_original [⟨"abc123".data, "http://example.com".data, 0, 3⟩]
        "zzzzzz".data
      = ([⟨"abc123".data, "http://example.com".data, 0, 3⟩],
          RedirectResult.notFound) :=
  C6_theorem _ _ (by decide) (by decide)

/-- Claim C7: frame conditions.  `recordVisit c` maps every row through
`bumpRow c`; rows whose code differs from `c` survive it literally
unchanged; every row after the visit corresponds to a stored row with
the same `short_code`, `original_url` and `created_at` and a
click count that has not decreased; a failed create leaves the store
unchanged, a successful create only appends a fresh row; and deletion
removes whole rows, leaving the others untouched. -/
theorem C7_theorem (s : Store) (c u : List Char) (now : Nat) :
    (increment_click_count s c).1 = s.map (bumpRow c)
    ∧ (∀ m ∈ s, m.short_code ≠ c → m ∈ (increment_click_count s c).1)
    ∧ (∀ m2 ∈ (increment_click_count s c).1,
        ∃ m ∈ s, m2.short_code = m.short_code
          ∧ m2.original_url = m.original_url
          ∧ m2.created_at = m.created_at
          ∧ m.click_count ≤ m2.click_count)
    ∧ ((create_url_mapping s now c u).2 = false →
        (create_url_mapping s now c u).1 = s)
    ∧ ((create_url_mapping s now c u).2 = true →
        (create_url_mapping s now c u).1 = s ++ [⟨c, u, now, 0⟩])
    ∧ (delete_url s c).1 = s.filter (fun m => !(m.short_code == c)) := by
  refine ⟨rfl, ?_, ?_, ?_, ?_, rfl⟩
  · intro m hm hne
    have hfix : bumpRow c m = m := bumpRow_nomatch (by simpa using hne)
    show m ∈ s.map (bumpRow c)
    rw [← hfix]
    exact List.mem_map_of_mem _ hm
  · intro m2 hm2
    obtain ⟨m, hm, heq⟩ := List.mem_map.mp hm2
    cases hmc : (m.short_code == c) with
    | true =>
      rw [bumpRow_match hmc] at heq
      subst heq
      exact ⟨m, hm, rfl, rfl, rfl, Nat.le_succ _⟩
    | false =>
      rw [bumpRow_nomatch hmc] at heq
      subst heq
      exact ⟨m, hm, rfl, rfl, rfl, Nat.le_refl _⟩
  · intro h2
    unfold create_url_mapping at h2 ⊢
    by_cases hc : s.any (fun m => m.short_code == c) = true
    · rw [if_pos hc]
    · rw [if_neg hc] at h2
      simp at h2
  · intro h2
    unfold create_url_mapping at h2 ⊢
    by_cases hc : s.any (fun m => m.short_code == c) = true
    · rw [if_pos hc] at h2
      simp at h2
    · rw [if_neg hc]

theorem C7_witness :
    (increment_click_count
        [⟨"abc123".data, "http://a.com".data, 0, 0⟩,
         ⟨"zzzzzz".data, "http://b.com".data, 0, 4⟩] "abc123".data).1
      = [⟨"abc123".data, "http://a.com".data, 0, 1⟩,
         ⟨"zzzzzz".data, "http://b.com".data, 0, 4⟩]
    ∧ (⟨"zzzzzz".data, "http://b.com".data, 0, 4⟩ : UrlMapping)
        ∈ (increment_click_count
            [⟨"abc123".data, "http://a.com".data, 0, 0⟩,
             ⟨"zzzzzz".data, "http://b.com".data, 0, 4⟩] "abc123".data).1
    ∧ (create_url_mapping
        [⟨"abc123".data, "http://a.com".data, 0, 0⟩,
         ⟨"zzzzzz".data, "http://b.com".data, 0, 4⟩] 9
        "abc123".data "http://c.com".data).1
      = [⟨"abc123".data, "http://a.com".data, 0, 0⟩,
         ⟨"zzzzzz".data, "http://b.com".data, 0, 4⟩] := by
  have h := C7_theorem
    [⟨"abc123".data, "http://a.com".data, 0, 0⟩,
     ⟨"zzzzzz".data, "http://b.com".data, 0, 4⟩]
    "abc123".data "http://c.com".data 9
  refine ⟨?_, ?_, ?_⟩
  · rw [h.1]
    decide
  · exact h.2.1 _ (by decide) (by decide)
  · exact h.2.2.2.1 (by decide)

/-- Claim C2: in every store state reachable from the empty store by the
store's operations, no two stored mappings share a `short_code`; and a
create whose candidate code already exists fails with `false` and
leaves the store unchanged (no overwrite). -/
theorem C2_theorem (s : Store) (h : Reachable s) :
    (codes s).Nodup
    ∧ ∀ now c u, (∃ m ∈ s, m.short_code = c) →
        create_url_mapping s now c u = (s, false) := by
  refine ⟨codes_nodup_of_reachable h, ?_⟩
  intro now c u hex
  obtain ⟨m, hm, hc⟩ := hex
  have hany : s.any (fun m2 => m2.short_code == c) = true :=
    List.any_eq_true.mpr ⟨m, hm, by simpa using hc⟩
  unfold create_url_mapping
  simp [hany]

theorem C2_witness :
    (codes [(⟨"abc123".data, "http://example.com".data, 0, 0⟩ :
        UrlMapping)]).Nodup
    ∧ create_url_mapping
        [⟨"abc123".data, "http://example.com".data, 0, 0⟩] 5
        "abc123".data "http://other.com".data
      = ([⟨"abc123".data, "http://example.com".data, 0, 0⟩], false) := by
  have hr : Reachable [⟨"abc123".data, "http://example.com".data, 0, 0⟩] := by
    have h0 := Reachable.create 0 "abc123".data "http://example.com".data []
      Reachable.empty
    simpa [create_url_mapping] using h0
  have h := C2_theorem _ hr
  exact ⟨h.1, h.2 5 "abc123".data "http://other.com".data
    ⟨⟨"abc123".data, "http://example.com".data, 0, 0⟩, by simp, rfl⟩⟩

theorem gen_unique_aux_none (s : Store) (draws : Nat → List Char) :
    ∀ n i, (∀ j, j < n → (get_url_mapping s (draws (i + j))).isSome = true) →
      gen_unique_aux s draws i n = none := by
  intro n
  induction n with
  | zero => intro i _; rfl
  | succ k ih =>
    intro i h
    have h0 : (get_url_mapping s (draws i)).isSome = true := by
      have h00 := h 0 (Nat.succ_pos k)
      simpa using h00
    show (if (get_url_mapping s (draws i)).isSome = true then
        gen_unique_aux s draws (i + 1) k
      else some (draws i)) = none
    rw [h0]
    simp only [if_true]
    refine ih (i + 1) ?_
    intro j hj
    have hjj := h (j + 1) (Nat.succ_lt_succ hj)
    have harith : i + (j + 1) = i + 1 + j := by omega
    rw [harith] at hjj
    exact hjj

/-- Claim C5: the create flow draws at most 10 random candidate codes;
when every one of the 10 candidates collides with an existing code, the
generator returns nothing and `shorten_url` answers a server error,
inserting no row (the store is returned unchanged). -/
theorem C5_theorem (s : Store) (now : Nat) (draws : Nat → List Char)
    (u : List Char) (hvalid : is_valid_url u = true)
    (hcoll : ∀ i, i < 10 → (get_url_mapping s (draws i)).isSome = true) :
    generate_unique_short_code s draws 10 = none
    ∧ shorten_url s now draws u = (s, ShortenResult.serverError) := by
  have hgen : generate_unique_short_code s draws 10 = none := by
    unfold generate_unique_short_code
    refine gen_unique_aux_none s draws 10 0 ?_
    intro j hj
    simpa using hcoll j hj
  refine ⟨hgen, ?_⟩
  unfold shorten_url
  rw [hvalid, hgen]
  rfl

theorem C5_witness :
    generate_unique_short_code
      [⟨"abc123".data, "http://example.com".data, 0, 0⟩]
      (fun _ => "abc123".data) 10 = none
    ∧ shorten_url [⟨"abc123".data, "http://example.com".data, 0, 0⟩] 7
        (fun _ => "abc123".data) "https://example.com".data
      = ([⟨"abc123".data, "http://example.com".data, 0, 0⟩],
          ShortenResult.serverError) :=
  C5_theorem _ 7 _ _ (by decide) (fun i _ => by decide)

/-- Claim C3: after a successful create of a mapping and then `n`
sequential `recordVisit` calls on its code (each of which succeeds), a
`get` of that code reports `click_count = n`. -/
theorem C3_theorem (s : Store) (now : Nat) (c u : List Char) (n : Nat)
    (hsucc : (create_url_mapping s now c u).2 = true) :
    (∀ k, k < n →
      (increment_click_count
        (visitN (create_url_mapping s now c u).1 c k) c).2 = true)
    ∧ get_url_mapping (visitN (create_url_mapping s now c u).1 c n) c
        = some ⟨c, u, now, n⟩ := by
  have hany : s.any (fun m => m.short_code == c) = false := by
    unfold create_url_mapping at hsucc
    by_cases hc2 : s.any (fun m => m.short_code == c) = true
    · simp [hc2] at hsucc
    · simpa using hc2
  have hs1 : (create_url_mapping s now c u).1 = s ++ [⟨c, u, now, 0⟩] := by
    unfold create_url_mapping
    rw [if_neg (by simp [hany])]
  have hbase : get_url_mapping (s ++ [⟨c, u, now, 0⟩]) c
      = some ⟨c, u, now, 0⟩ :=
    get_append_fresh (forall_of_any_code_eq_false hany) _ rfl
  have hinv : ∀ k, get_url_mapping (visitN (s ++ [⟨c, u, now, 0⟩]) c k) c
      = some ⟨c, u, now, k⟩ := by
    intro k
    induction k with
    | zero => exact hbase
    | succ k2 ih => exact get_increment_some ih
  rw [hs1]
  exact ⟨fun k _ => increment_rowcount_true (hinv k), hinv n⟩

theorem C3_witness :
    (∀ k, k < 2 →
      (increment_click_count
        (visitN (create_url_mapping [] 0 "abc123".data
          "http://example.com".data).1 "abc123".data k) "abc123".data).2
        = true)
    ∧ get_url_mapping
        (visitN (create_url_mapping [] 0 "abc123".data
          "http://example.com".data).1 "abc123".data 2) "abc123".data
      = some ⟨"abc123".data, "http://example.com".data, 0, 2⟩ :=
  C3_theorem [] 0 "abc123".data "http://example.com".data 2 (by decide)

theorem shorten_url_eval_fresh (s : Store) (now : Nat)
    (draws : Nat → List Char) (u : List Char) (c2 : List Char)
    (hv : is_valid_url u = true)
    (hgen : generate_unique_short_code s draws 10 = some c2)
    (hc : s.any (fun m => m.short_code == c2) = false) :
    shorten_url s now draws u
      = (s ++ [⟨c2, sanitize_url u, now, 0⟩],
          ShortenResult.created c2 (sanitize_url u)) := by
  unfold shorten_url create_url_mapping
  rw [hv, hgen]
  simp [hc]

theorem shorten_url_eval_collision (s : Store) (now : Nat)
    (draws : Nat → List Char) (u : List Char) (c2 : List Char)
    (hv : is_valid_url u = true)
    (hgen : generate_unique_short_code s draws 10 = some c2)
    (hc : s.any (fun m => m.short_code == c2) = true) :
    shorten_url s now draws u = (s, ShortenResult.serverError) := by
  unfold shorten_url create_url_mapping
  rw [hv, hgen]
  simp [hc]

theorem shorten_url_eval_invalid (s : Store) (now : Nat)
    (draws : Nat → List Char) (u : List Char)
    (hv : is_valid_url u = false) :
    shorten_url s now draws u = (s, ShortenResult.badRequest) := by
  unfold shorten_url
  rw [hv]
  rfl

/-- Claim C4: round-trip of create and get: when the submitted URL
already carries an `http://` or `https://` prefix and has no surrounding
whitespace, a successful create through the shorten flow followed by a
get of the returned code yields a mapping whose `original_url` is the
submitted URL exactly and whose `click_count` is 0. -/
theorem C4_theorem (s : Store) (now : Nat) (draws : Nat → List Char)
    (u : List Char) (s1 : Store) (code orig : List Char)
    (hscheme : hasHttpScheme u = true)
    (hws : pyStrip u = u)
    (hok : shorten_url s now draws u = (s1, ShortenResult.created code orig)) :
    orig = u ∧ get_url_mapping s1 code = some ⟨code, u, now, 0⟩ := by
  have hsan : sanitize_url u = u :=
    sanitize_url_of_stripped_scheme (hasHttpScheme_ne_nil hscheme) hws hscheme
  by_cases hv : is_valid_url u = true
  · cases hgen : generate_unique_short_code s draws 10 with
    | none =>
      have heval : shorten_url s now draws u = (s, ShortenResult.serverError) := by
        unfold shorten_url
        rw [hv, hgen]
        rfl
      rw [heval] at hok
      simp at hok
    | some c2 =>
      by_cases hc : s.any (fun m => m.short_code == c2) = true
      · rw [shorten_url_eval_collision s now draws u c2 hv hgen hc] at hok
        simp at hok
      · rw [Bool.not_eq_true] at hc
        rw [shorten_url_eval_fresh s now draws u c2 hv hgen hc, hsan] at hok
        have h1 : s ++ [(⟨c2, u, now, 0⟩ : UrlMapping)] = s1 :=
          congrArg Prod.fst hok
        have h2 : ShortenResult.created c2 u
            = ShortenResult.created code orig := congrArg Prod.snd hok
        injection h2 with hcode horig
        subst hcode
        subst horig
        refine ⟨rfl, ?_⟩
        rw [← h1]
        exact get_append_fresh (forall_of_any_code_eq_false hc) _ rfl
  · rw [Bool.not_eq_true] at hv
    rw [shorten_url_eval_invalid s now draws u hv] at hok
    simp at hok

theorem C4_witness :
    shorten_url [] 3 (fun _ => "abc123".data) "https://example.com".data
      = ([⟨"abc123".data, "https://example.com".data, 3, 0⟩],
          ShortenResult.created "abc123".data "https://example.com".data)
    ∧ get_url_mapping [⟨"abc123".data, "https://example.com".data, 3, 0⟩]
        "abc123".data
      = some ⟨"abc123".data, "https://example.com".data, 3, 0⟩ := by
  have h := C4_theorem [] 3 (fun _ => "abc123".data)
    "https://example.com".data
    [⟨"abc123".data, "https://example.com".data, 3, 0⟩]
    "abc123".data "https://example.com".data
    (by decide) (by decide) (by decide)
  exact ⟨by decide, h.2⟩

theorem pyIsAlnum_of_ascii {ch : Char} (h : asciiAlnum ch = true) :
    pyIsAlnum ch = true := by
  unfold pyIsAlnum
  simp [h]

/-- Claim C1, counterexample: the claim as stated fails on the code.
`main.shorten_url` runs `is_valid_url` on the raw input and only
sanitizes afterwards, so the scheme-less input `github.com` is rejected
as a bad request and nothing is stored — even though `sanitize_url`
would have normalized it to `http://github.com`. -/
theorem C1_counterexample :
    shorten_url [] 0 (fun _ => "abc123".data) "github.com".data
      = ([], ShortenResult.badRequest)
    ∧ is_valid_url "github.com".data = false
    ∧ sanitize_url "github.com".data = "http://github.com".data := by
  refine ⟨?_, ?_, ?_⟩ <;> decide

/-- Claim C1, amended: the create flow validates the submitted URL
before normalizing it, so the scheme-less input `github.com` is
rejected with a bad request and no store change; for the already
schemed input `http://github.com` the end-to-end scenario holds: create
on the empty store succeeds and stores `http://github.com` under the
drawn code (any 6-character alphanumeric draw), a redirect lookup on
that code returns exactly `http://github.com`, and stats after that
one redirect reports `click_count = 1`. -/
theorem C1_amended (c : List Char) (h6 : c.length = 6)
    (hal : c.all asciiAlnum = true) :
    shorten_url [] 0 (fun _ => c) "github.com".data
      = ([], ShortenResult.badRequest)
    ∧ shorten_url [] 0 (fun _ => c) "http://github.com".data
      = ([⟨c, "http://github.com".data, 0, 0⟩],
          ShortenResult.created c "http://github.com".data)
    ∧ redirect_to_original [⟨c, "http://github.com".data, 0, 0⟩] c
      = ([⟨c, "http://github.com".data, 0, 1⟩],
          RedirectResult.redirect "http://github.com".data)
    ∧ get_url_stats [⟨c, "http://github.com".data, 0, 1⟩] c
      = StatsResult.stats c "http://github.com".data 1 0 := by
  have hne : c ≠ [] := by
    intro h0
    rw [h0] at h6
    simp at h6
  have hie : c.isEmpty = false := by simpa using hne
  have hall : c.all pyIsAlnum = true := by
    rw [List.all_eq_true] at hal ⊢
    intro x hx
    exact pyIsAlnum_of_ascii (hal x hx)
  have hvc : validate_short_code c = true := by
    simp [validate_short_code, pyStrIsAlnum, hie, h6, hall]
  have hget : ∀ (url : List Char) (n : Nat),
      get_url_mapping [⟨c, url, 0, n⟩] c = some ⟨c, url, 0, n⟩ := by
    intro url n
    unfold get_url_mapping
    rw [@List.find?_cons_of_pos _ (fun m : UrlMapping => m.short_code == c)
      ⟨c, url, 0, n⟩ [] (by simp)]
  refine ⟨?_, ?_, ?_, ?_⟩
  · exact shorten_url_eval_invalid [] 0 (fun _ => c) "github.com".data
      (by decide)
  · have he := shorten_url_eval_fresh [] 0 (fun _ => c)
      "http://github.com".data c (by decide) rfl rfl
    rw [he,
      show sanitize_url "http://github.com".data = "http://github.com".data
        from by decide]
    rfl
  · unfold redirect_to_original
    rw [hvc, hget "http://github.com".data 0]
    simp [increment_click_count, bumpRow]
  · unfold get_url_stats
    rw [hvc, hget "http://github.com".data 1]
    rfl

theorem C1_witness :
    shorten_url [] 0 (fun _ => "abc123".data) "github.com".data
      = ([], ShortenResult.badRequest)
    ∧ shorten_url [] 0 (fun _ => "abc123".data) "http://github.com".data
      = ([⟨"abc123".data, "http://github.com".data, 0, 0⟩],
          ShortenResult.created "abc123".data "http://github.com".data)
    ∧ redirect_to_original
        [⟨"abc123".data, "http://github.com".data, 0, 0⟩] "abc123".data
      = ([⟨"abc123".data, "http://github.com".data, 0, 1⟩],
          RedirectResult.redirect "http://github.com".data)
    ∧ get_url_stats
        [⟨"abc123".data, "http://github.com".data, 0, 1⟩] "abc123".data
      = StatsResult.stats "abc123".data "http://github.com".data 1 0 :=
  C1_amended "abc123".data (by decide) (by decide)

end UrlShortener
